import Mathlib

/-!
Shallow embedding of `berserkguard/binary-rs` (`src/lib.rs`): the `Stream`
trait, the `StreamError`/`BinaryError` taxonomy, and the `BinaryReader` /
`BinaryWriter` facades.  Rust's `&mut dyn Stream` is modelled by explicit
state passing: every operation takes a stream state and returns the new
state together with its `Result`.  Machine integers are `Nat`/`Int` with
explicit bounds; `f32`/`f64` values are modelled by their IEEE-754 bit
patterns (bincode serializes a float as its `to_bits()` in fixed-width
little-endian order, which is also what the legacy `bincode::serialize` /
`bincode::deserialize` configuration used by this crate does for every
integer type, with `usize`/`isize` widened to 64 bits).
-/

namespace BinaryRs

/-- `StreamError` from src/lib.rs lines 59-66. -/
inductive StreamError where
  | OpenError
  | WriteError
  | ReadError
  | SeekError
  | TellError
deriving DecidableEq, Repr

/-- `BinaryError` from src/lib.rs lines 14-19.  The `BinCodeErr` payload
(`Box<bincode::ErrorKind>`) and the `Utf8Error` payload (`FromUtf8Error`)
are never inspected by the library, so they are dropped in the model. -/
inductive BinaryError where
  | StreamError (e : StreamError)
  | BinCodeErr
  | Utf8Error
deriving DecidableEq, Repr

/-- The `Stream` trait from src/lib.rs lines 86-91, over an explicit state
type `σ`.  `read` receives the caller's pre-sized buffer (Rust fills it in
place) and returns the buffer's new contents together with the reported
count; all four operations return the post-call stream state even on
failure, mirroring Rust's `&mut` semantics. -/
structure Stream (σ : Type) where
  write : σ → List Nat → σ × Except StreamError Nat
  read : σ → List Nat → σ × Except StreamError (List Nat × Nat)
  seek : σ → Nat → σ × Except StreamError Nat
  tell : σ → σ × Except StreamError Nat

/-- Little-endian fixed-width encoding of a natural number into `w` bytes,
as produced by bincode's legacy (fixed-int, little-endian) configuration. -/
def leEncode : Nat → Nat → List Nat
  | 0, _ => []
  | w + 1, n => n % 256 :: leEncode w (n / 256)

/-- Little-endian decoding of a byte list back into a natural number. -/
def leDecode : List Nat → Nat
  | [] => 0
  | b :: bs => b + 256 * leDecode bs

/-- bincode `serialize` of an unsigned fixed-width integer (`w` bytes). -/
def serialize_uint (w : Nat) (n : Nat) : List Nat := leEncode w n

/-- bincode `serialize` of a signed fixed-width integer: two's complement,
little-endian, `w` bytes. -/
def serialize_int (w : Nat) (v : Int) : List Nat :=
  leEncode w ((v % ((2 : Int) ^ (8 * w))).toNat)

/-- Interpret a `w`-byte unsigned value as a two's-complement signed one. -/
def toSigned (w : Nat) (n : Nat) : Int :=
  if n < 2 ^ (8 * w - 1) then (n : Int) else (n : Int) - 2 ^ (8 * w)

/-- bincode `deserialize` of an unsigned fixed-width integer from a byte
buffer: fails (with an unstructured error, the model of
`bincode::ErrorKind`) when the buffer is shorter than `w` bytes. -/
def deserialize_uint (w : Nat) (buf : List Nat) : Except Unit Nat :=
  if buf.length < w then Except.error () else Except.ok (leDecode (buf.take w))

/-- bincode `deserialize` of a signed fixed-width integer. -/
def deserialize_int (w : Nat) (buf : List Nat) : Except Unit Int :=
  (deserialize_uint w buf).map (toSigned w)

/-- Whether `c` is a UTF-8 continuation byte (`0x80..0xBF`). -/
def utf8Cont (c : Nat) : Bool := 0x80 ≤ c && c ≤ 0xBF

/-- Modelled from the spec: the UTF-8 validity check performed by Rust's
`String::from_utf8` (the standard library is external to this repository;
the spec fixes the behavior as "decoded bytes are not valid UTF-8" being
the failure condition).  Standard UTF-8 well-formedness: it rejects overlong
forms, surrogates and code points above `U+10FFFF`. -/
def validUtf8 : List Nat → Bool
  | [] => true
  | b :: rest =>
    if b ≤ 0x7F then validUtf8 rest
    else if b ≤ 0xC1 then false
    else if b ≤ 0xDF then
      match rest with
      | c1 :: rest1 => utf8Cont c1 && validUtf8 rest1
      | [] => false
    else if b ≤ 0xEF then
      match rest with
      | c1 :: c2 :: rest2 =>
        (if b = 0xE0 then decide (0xA0 ≤ c1 ∧ c1 ≤ 0xBF)
         else if b = 0xED then decide (0x80 ≤ c1 ∧ c1 ≤ 0x9F)
         else utf8Cont c1) && utf8Cont c2 && validUtf8 rest2
      | _ => false
    else if b ≤ 0xF4 then
      match rest with
      | c1 :: c2 :: c3 :: rest3 =>
        (if b = 0xF0 then decide (0x90 ≤ c1 ∧ c1 ≤ 0xBF)
         else if b = 0xF4 then decide (0x80 ≤ c1 ∧ c1 ≤ 0x8F)
         else utf8Cont c1) && utf8Cont c2 && utf8Cont c3 && validUtf8 rest3
      | _ => false
    else false

/-- Shared shape of every fixed-width `read_<T>` in src/lib.rs (lines
126-280): allocate a zero-filled buffer of the exact width, issue one
`Stream::read` into it (its count is discarded by the `?` statement), then
`deserialize` the buffer; a stream failure maps to
`BinaryError::StreamError`, a decode failure to `BinaryError::BinCodeErr`. -/
def readFixed {σ α : Type} (S : Stream σ) (s : σ) (width : Nat)
    (dec : List Nat → Except Unit α) : σ × Except BinaryError α :=
  match S.read s (List.replicate width 0) with
  | (s1, Except.error e) => (s1, Except.error (BinaryError.StreamError e))
  | (s1, Except.ok (buf, _count)) =>
    match dec buf with
    | Except.ok v => (s1, Except.ok v)
    | Except.error _ => (s1, Except.error BinaryError.BinCodeErr)

/-- Shared shape of every fixed-width `write_<T>` in src/lib.rs (lines
333-463): `serialize` the value (which never fails for the supported
fixed-width types under the legacy bincode configuration), issue one
`Stream::write` of the buffer, and map a stream failure to
`BinaryError::StreamError`. -/
def writeFixed {σ : Type} (S : Stream σ) (s : σ) (data : List Nat) :
    σ × Except BinaryError Nat :=
  match S.write s data with
  | (s1, Except.ok v) => (s1, Except.ok v)
  | (s1, Except.error e) => (s1, Except.error (BinaryError.StreamError e))

namespace BinaryReader

/-- `BinaryReader::seek_to`, src/lib.rs lines 98-105. -/
def seek_to {σ : Type} (S : Stream σ) (s : σ) (toPos : Nat) :
    σ × Except BinaryError Nat :=
  match S.seek s toPos with
  | (s1, Except.ok r) => (s1, Except.ok r)
  | (s1, Except.error e) => (s1, Except.error (BinaryError.StreamError e))

/-- `BinaryReader::get_cur_pos`, src/lib.rs lines 107-114. -/
def get_cur_pos {σ : Type} (S : Stream σ) (s : σ) :
    σ × Except BinaryError Nat :=
  match S.tell s with
  | (s1, Except.ok r) => (s1, Except.ok r)
  | (s1, Except.error e) => (s1, Except.error (BinaryError.StreamError e))

/-- `BinaryReader::read_f32`, src/lib.rs lines 126-137; the value is its
IEEE-754 bit pattern. -/
def read_f32 {σ : Type} (S : Stream σ) (s : σ) : σ × Except BinaryError Nat :=
  readFixed S s 4 (deserialize_uint 4)

/-- `BinaryReader::read_f64`, src/lib.rs lines 139-150; the value is its
IEEE-754 bit pattern. -/
def read_f64 {σ : Type} (S : Stream σ) (s : σ) : σ × Except BinaryError Nat :=
  readFixed S s 8 (deserialize_uint 8)

/-- `BinaryReader::read_isize`, src/lib.rs lines 152-163: bincode decodes
`isize` as a 64-bit signed integer from an 8-byte buffer. -/
def read_isize {σ : Type} (S : Stream σ) (s : σ) : σ × Except BinaryError Int :=
  readFixed S s 8 (deserialize_int 8)

/-- `BinaryReader::read_usize`, src/lib.rs lines 165-176: bincode decodes
`usize` as a 64-bit unsigned integer from an 8-byte buffer. -/
def read_usize {σ : Type} (S : Stream σ) (s : σ) : σ × Except BinaryError Nat :=
  readFixed S s 8 (deserialize_uint 8)

/-- `BinaryReader::read_u64`, src/lib.rs lines 178-189. -/
def read_u64 {σ : Type} (S : Stream σ) (s : σ) : σ × Except BinaryError Nat :=
  readFixed S s 8 (deserialize_uint 8)

/-- `BinaryReader::read_i64`, src/lib.rs lines 191-202. -/
def read_i64 {σ : Type} (S : Stream σ) (s : σ) : σ × Except BinaryError Int :=
  readFixed S s 8 (deserialize_int 8)

/-- `BinaryReader::read_u32`, src/lib.rs lines 204-215. -/
def read_u32 {σ : Type} (S : Stream σ) (s : σ) : σ × Except BinaryError Nat :=
  readFixed S s 4 (deserialize_uint 4)

/-- `BinaryReader::read_i32`, src/lib.rs lines 217-228. -/
def read_i32 {σ : Type} (S : Stream σ) (s : σ) : σ × Except BinaryError Int :=
  readFixed S s 4 (deserialize_int 4)

/-- `BinaryReader::read_u16`, src/lib.rs lines 230-241. -/
def read_u16 {σ : Type} (S : Stream σ) (s : σ) : σ × Except BinaryError Nat :=
  readFixed S s 2 (deserialize_uint 2)

/-- `BinaryReader::read_i16`, src/lib.rs lines 243-254. -/
def read_i16 {σ : Type} (S : Stream σ) (s : σ) : σ × Except BinaryError Int :=
  readFixed S s 2 (deserialize_int 2)

/-- `BinaryReader::read_u8`, src/lib.rs lines 256-267. -/
def read_u8 {σ : Type} (S : Stream σ) (s : σ) : σ × Except BinaryError Nat :=
  readFixed S s 1 (deserialize_uint 1)

/-- `BinaryReader::read_i8`, src/lib.rs lines 269-280. -/
def read_i8 {σ : Type} (S : Stream σ) (s : σ) : σ × Except BinaryError Int :=
  readFixed S s 1 (deserialize_int 1)

/-- `BinaryReader::read_string`, src/lib.rs lines 116-124: read a `usize`
length, read that many bytes, decode them as UTF-8.  A Rust `String` is
modelled by its UTF-8 byte content. -/
def read_string {σ : Type} (S : Stream σ) (s : σ) :
    σ × Except BinaryError (List Nat) :=
  match read_usize S s with
  | (s1, Except.error e) => (s1, Except.error e)
  | (s1, Except.ok str_len) =>
    match S.read s1 (List.replicate str_len 0) with
    | (s2, Except.error e) => (s2, Except.error (BinaryError.StreamError e))
    | (s2, Except.ok (chars, _n)) =>
      if validUtf8 chars then (s2, Except.ok chars)
      else (s2, Except.error BinaryError.Utf8Error)

/-- `BinaryReader::read_bytes`, src/lib.rs lines 282-290: allocate a
zero-filled buffer of `length` bytes, issue one `Stream::read`, and on
`Ok(_)` return the (possibly only partially filled) buffer, discarding the
count the stream reported. -/
def read_bytes {σ : Type} (S : Stream σ) (s : σ) (length : Nat) :
    σ × Except BinaryError (List Nat) :=
  match S.read s (List.replicate length 0) with
  | (s1, Except.ok (buffer, _bytes)) => (s1, Except.ok buffer)
  | (s1, Except.error e) => (s1, Except.error (BinaryError.StreamError e))

end BinaryReader

namespace BinaryWriter

/-- `BinaryWriter::seek_to`, src/lib.rs lines 302-309. -/
def seek_to {σ : Type} (S : Stream σ) (s : σ) (toPos : Nat) :
    σ × Except BinaryError Nat :=
  match S.seek s toPos with
  | (s1, Except.ok r) => (s1, Except.ok r)
  | (s1, Except.error e) => (s1, Except.error (BinaryError.StreamError e))

/-- `BinaryWriter::get_cur_pos`, src/lib.rs lines 311-318. -/
def get_cur_pos {σ : Type} (S : Stream σ) (s : σ) :
    σ × Except BinaryError Nat :=
  match S.tell s with
  | (s1, Except.ok pos) => (s1, Except.ok pos)
  | (s1, Except.error e) => (s1, Except.error (BinaryError.StreamError e))

/-- `BinaryWriter::write_f32`, src/lib.rs lines 333-342; the value is its
IEEE-754 bit pattern. -/
def write_f32 {σ : Type} (S : Stream σ) (s : σ) (value : Nat) :
    σ × Except BinaryError Nat :=
  writeFixed S s (serialize_uint 4 value)

/-- `BinaryWriter::write_f64`, src/lib.rs lines 344-353; the value is its
IEEE-754 bit pattern. -/
def write_f64 {σ : Type} (S : Stream σ) (s : σ) (value : Nat) :
    σ × Except BinaryError Nat :=
  writeFixed S s (serialize_uint 8 value)

/-- `BinaryWriter::write_isize`, src/lib.rs lines 355-364: bincode encodes
`isize` as a 64-bit signed integer (8 bytes). -/
def write_isize {σ : Type} (S : Stream σ) (s : σ) (value : Int) :
    σ × Except BinaryError Nat :=
  writeFixed S s (serialize_int 8 value)

/-- `BinaryWriter::write_usize`, src/lib.rs lines 366-375: bincode encodes
`usize` as a 64-bit unsigned integer (8 bytes). -/
def write_usize {σ : Type} (S : Stream σ) (s : σ) (value : Nat) :
    σ × Except BinaryError Nat :=
  writeFixed S s (serialize_uint 8 value)

/-- `BinaryWriter::write_u64`, src/lib.rs lines 377-386. -/
def write_u64 {σ : Type} (S : Stream σ) (s : σ) (value : Nat) :
    σ × Except BinaryError Nat :=
  writeFixed S s (serialize_uint 8 value)

/-- `BinaryWriter::write_i64`, src/lib.rs lines 388-397. -/
def write_i64 {σ : Type} (S : Stream σ) (s : σ) (value : Int) :
    σ × Except BinaryError Nat :=
  writeFixed S s (serialize_int 8 value)

/-- `BinaryWriter::write_u32`, src/lib.rs lines 399-408. -/
def write_u32 {σ : Type} (S : Stream σ) (s : σ) (value : Nat) :
    σ × Except BinaryError Nat :=
  writeFixed S s (serialize_uint 4 value)

/-- `BinaryWriter::write_i32`, src/lib.rs lines 410-419. -/
def write_i32 {σ : Type} (S : Stream σ) (s : σ) (value : Int) :
    σ × Except BinaryError Nat :=
  writeFixed S s (serialize_int 4 value)

/-- `BinaryWriter::write_u16`, src/lib.rs lines 421-430. -/
def write_u16 {σ : Type} (S : Stream σ) (s : σ) (value : Nat) :
    σ × Except BinaryError Nat :=
  writeFixed S s (serialize_uint 2 value)

/-- `BinaryWriter::write_i16`, src/lib.rs lines 432-441. -/
def write_i16 {σ : Type} (S : Stream σ) (s : σ) (value : Int) :
    σ × Except BinaryError Nat :=
  writeFixed S s (serialize_int 2 value)

/-- `BinaryWriter::write_u8`, src/lib.rs lines 443-452. -/
def write_u8 {σ : Type} (S : Stream σ) (s : σ) (value : Nat) :
    σ × Except BinaryError Nat :=
  writeFixed S s (serialize_uint 1 value)

/-- `BinaryWriter::write_i8`, src/lib.rs lines 454-463. -/
def write_i8 {σ : Type} (S : Stream σ) (s : σ) (value : Int) :
    σ × Except BinaryError Nat :=
  writeFixed S s (serialize_int 1 value)

/-- `BinaryWriter::write_string`, src/lib.rs lines 320-331: write the
`usize` byte length of the string (the `?` statement propagates its
failure), then issue one `Stream::write` of the UTF-8 bytes, returning only
the count of that second write.  A Rust `String` is modelled by its UTF-8
byte content. -/
def write_string {σ : Type} (S : Stream σ) (s : σ) (value : List Nat) :
    σ × Except BinaryError Nat :=
  match write_usize S s value.length with
  | (s1, Except.error e) => (s1, Except.error e)
  | (s1, Except.ok _) =>
    match S.write s1 value with
    | (s2, Except.ok v) => (s2, Except.ok v)
    | (s2, Except.error e) => (s2, Except.error (BinaryError.StreamError e))

/-- `BinaryWriter::write_bytes`, src/lib.rs lines 465-472. -/
def write_bytes {σ : Type} (S : Stream σ) (s : σ) (data : List Nat) :
    σ × Except BinaryError Nat :=
  match S.write s data with
  | (s1, Except.ok v) => (s1, Except.ok v)
  | (s1, Except.error e) => (s1, Except.error (BinaryError.StreamError e))

end BinaryWriter

/-- Overwrite `data` at offset `pos` with `bytes`, extending the medium as
needed (zero-padding any gap between the end of `data` and `pos`). -/
def overwriteAt (data : List Nat) (pos : Nat) (bytes : List Nat) : List Nat :=
  data.take pos ++ List.replicate (pos - data.length) 0 ++ bytes ++
    data.drop (pos + bytes.length)

/-- Modelled from the spec: the state of an in-memory backing store
implementing the `Stream` capability contract of the spec (the repository's
`memorystream` module is outside src/lib.rs) — a growable byte buffer and a
cursor. -/
structure MemStream where
  data : List Nat
  pos : Nat
deriving DecidableEq, Repr

/-- Modelled from the spec: `Stream::write` for the memory store — writes
`bytes` at the cursor (overwriting/appending), reports the full count, and
advances the cursor. -/
def MemStream.writeOp (s : MemStream) (bytes : List Nat) :
    MemStream × Except StreamError Nat :=
  (⟨overwriteAt s.data s.pos bytes, s.pos + bytes.length⟩,
    Except.ok bytes.length)

/-- Modelled from the spec: `Stream::read` for the memory store — fills the
caller's buffer from the cursor and advances it; per the spec contract it
fails with `ReadError` when fewer bytes are available than the buffer
requests, rather than reporting a partial read. -/
def MemStream.readOp (s : MemStream) (buffer : List Nat) :
    MemStream × Except StreamError (List Nat × Nat) :=
  if s.pos + buffer.length ≤ s.data.length then
    (⟨s.data, s.pos + buffer.length⟩,
      Except.ok ((s.data.drop s.pos).take buffer.length, buffer.length))
  else (s, Except.error StreamError.ReadError)

/-- Modelled from the spec: `Stream::seek` for the memory store — moves the
cursor to an absolute offset, failing with `SeekError` outside the medium's
valid range. -/
def MemStream.seekOp (s : MemStream) (toPos : Nat) :
    MemStream × Except StreamError Nat :=
  if toPos ≤ s.data.length then (⟨s.data, toPos⟩, Except.ok toPos)
  else (s, Except.error StreamError.SeekError)

/-- Modelled from the spec: `Stream::tell` for the memory store. -/
def MemStream.tellOp (s : MemStream) : MemStream × Except StreamError Nat :=
  (s, Except.ok s.pos)

/-- The memory store packaged as a `Stream` — the faithful backing store the
round-trip claims assume. -/
def memStream : Stream MemStream :=
  ⟨MemStream.writeOp, MemStream.readOp, MemStream.seekOp, MemStream.tellOp⟩

/-- A memory store instrumented with counters for the number of
`Stream::read` and `Stream::write` invocations, used to count the stream
I/O operations a reader/writer call performs. -/
structure CountingStream where
  mem : MemStream
  reads : Nat
  writes : Nat
deriving DecidableEq, Repr

/-- The counting store packaged as a `Stream`: it delegates to the memory
store and increments the matching counter on every `read`/`write`
invocation, whether or not the operation succeeds. -/
def countingStream : Stream CountingStream :=
  { write := fun c bytes =>
      match MemStream.writeOp c.mem bytes with
      | (m, r) => (⟨m, c.reads, c.writes + 1⟩, r)
    read := fun c buffer =>
      match MemStream.readOp c.mem buffer with
      | (m, r) => (⟨m, c.reads + 1, c.writes⟩, r)
    seek := fun c toPos =>
      match MemStream.seekOp c.mem toPos with
      | (m, r) => (⟨m, c.reads, c.writes⟩, r)
    tell := fun c =>
      match MemStream.tellOp c.mem with
      | (m, r) => (⟨m, c.reads, c.writes⟩, r) }

/-- A backing store that may report a successful but short read: it hands
out the bytes it has, fills only that much of the caller's buffer, and
still returns `Ok` with the (possibly smaller) count — legal behavior for
the `read(buffer) -> count` signature of the `Stream` trait. -/
structure ShortStream where
  avail : List Nat
deriving DecidableEq, Repr

/-- The short-reading store packaged as a `Stream`: `read` fills the first
`min avail.length buffer.length` bytes of the buffer and reports that count
as success; the remaining operations are irrelevant to its use. -/
def shortStream : Stream ShortStream :=
  { write := fun s _ => (s, Except.error StreamError.WriteError)
    read := fun s buffer =>
      (⟨s.avail.drop (min s.avail.length buffer.length)⟩,
        Except.ok (s.avail.take (min s.avail.length buffer.length) ++
          buffer.drop (min s.avail.length buffer.length),
          min s.avail.length buffer.length))
    seek := fun s _ => (s, Except.error StreamError.SeekError)
    tell := fun s => (s, Except.error StreamError.TellError) }

/-- Write with `wr`, seek back to the starting position with the library's
own `seek_to`, then read with `rd`: the value a reader sees at the position
where the writer wrote. -/
def writeReadBack {β : Type} (wr : MemStream → MemStream × Except BinaryError Nat)
    (rd : MemStream → MemStream × Except BinaryError β) (s : MemStream) :
    Except BinaryError β :=
  (rd (BinaryReader.seek_to memStream (wr s).1 s.pos).1).2

theorem leEncode_length (w n : Nat) : (leEncode w n).length = w := by
  induction w generalizing n with
  | zero => rfl
  | succ w ih => simp [leEncode, ih]

theorem leDecode_leEncode (w n : Nat) (h : n < 256 ^ w) :
    leDecode (leEncode w n) = n := by
  induction w generalizing n with
  | zero =>
    rw [pow_zero] at h
    simp [leEncode, leDecode]
    omega
  | succ w ih =>
    have hdiv : n / 256 < 256 ^ w := by
      rw [Nat.div_lt_iff_lt_mul (by norm_num)]
      calc n < 256 ^ (w + 1) := h
        _ = 256 ^ w * 256 := pow_succ 256 w
    simp only [leEncode, leDecode]
    rw [ih (n / 256) hdiv]
    omega

theorem deserialize_serialize_uint (w n : Nat) (h : n < 256 ^ w) :
    deserialize_uint w (serialize_uint w n) = Except.ok n := by
  unfold deserialize_uint serialize_uint
  rw [if_neg (by rw [leEncode_length]; omega)]
  rw [List.take_of_length_le (by rw [leEncode_length])]
  rw [leDecode_leEncode w n h]

theorem toSigned_emod (w : Nat) (hw : 0 < w) (v : Int)
    (h1 : -(2 ^ (8 * w - 1)) ≤ v) (h2 : v < 2 ^ (8 * w - 1)) :
    toSigned w ((v % (2 : Int) ^ (8 * w)).toNat) = v := by
  have hM : (2 : Int) ^ (8 * w) = 2 * 2 ^ (8 * w - 1) := by
    rw [← pow_succ']
    congr 1
    omega
  have hA : ((2 ^ (8 * w - 1) : Nat) : Int) = (2 : Int) ^ (8 * w - 1) := by
    push_cast; rfl
  have hApos : (0 : Int) < 2 ^ (8 * w - 1) := by positivity
  have hmod : v % (2 : Int) ^ (8 * w) = if 0 ≤ v then v else v + 2 ^ (8 * w) := by
    rcases le_or_lt 0 v with hv | hv
    · rw [if_pos hv]
      exact Int.emod_eq_of_lt hv (by omega)
    · rw [if_neg (by omega)]
      have h3 : (v + 2 ^ (8 * w) * 1) % (2 : Int) ^ (8 * w) = v % 2 ^ (8 * w) :=
        Int.add_mul_emod_self_left v ((2 : Int) ^ (8 * w)) 1
      have h4 : (v + 2 ^ (8 * w)) % (2 : Int) ^ (8 * w) = v + 2 ^ (8 * w) :=
        Int.emod_eq_of_lt (by omega) (by omega)
      calc v % (2 : Int) ^ (8 * w) = (v + 2 ^ (8 * w) * 1) % 2 ^ (8 * w) := by
            rw [h3]
        _ = v + 2 ^ (8 * w) := by rw [mul_one] at *; rw [h4]
  simp only [toSigned]
  rw [hmod]
  rcases le_or_lt 0 v with hv | hv
  · rw [if_pos hv]
    have hcond : v.toNat < 2 ^ (8 * w - 1) := by omega
    rw [if_pos hcond]
    omega
  · rw [if_neg (not_le.mpr hv)]
    have hcond : ¬ (v + 2 ^ (8 * w)).toNat < 2 ^ (8 * w - 1) := by omega
    rw [if_neg hcond]
    omega

theorem deserialize_serialize_int (w : Nat) (hw : 0 < w) (v : Int)
    (h1 : -(2 ^ (8 * w - 1)) ≤ v) (h2 : v < 2 ^ (8 * w - 1)) :
    deserialize_int w (serialize_int w v) = Except.ok v := by
  have hlt : (v % (2 : Int) ^ (8 * w)).toNat < 256 ^ w := by
    have h256 : (256 : Int) ^ w = 2 ^ (8 * w) := by
      rw [show (256 : Int) = 2 ^ 8 by norm_num, ← pow_mul]
    have hmodlt : v % (2 : Int) ^ (8 * w) < 2 ^ (8 * w) :=
      Int.emod_lt_of_pos v (by positivity)
    have hc : ((256 ^ w : Nat) : Int) = (256 : Int) ^ w := by push_cast; rfl
    omega
  have hu := deserialize_serialize_uint w ((v % (2 : Int) ^ (8 * w)).toNat) hlt
  unfold deserialize_int serialize_int
  rw [show leEncode w ((v % (2 : Int) ^ (8 * w)).toNat) =
    serialize_uint w ((v % (2 : Int) ^ (8 * w)).toNat) from rfl, hu]
  simp only [Except.map]
  rw [toSigned_emod w hw v h1 h2]

theorem overwriteAt_eq (data : List Nat) (pos : Nat) (bytes : List Nat)
    (h : pos ≤ data.length) :
    overwriteAt data pos bytes =
      data.take pos ++ bytes ++ data.drop (pos + bytes.length) := by
  unfold overwriteAt
  rw [Nat.sub_eq_zero_of_le h]
  simp

theorem overwriteAt_length (data : List Nat) (pos : Nat) (bytes : List Nat)
    (h : pos ≤ data.length) :
    (overwriteAt data pos bytes).length = max data.length (pos + bytes.length) := by
  rw [overwriteAt_eq data pos bytes h]
  simp [List.length_take, List.length_drop]
  omega

theorem overwriteAt_read (data : List Nat) (pos : Nat) (bytes : List Nat)
    (h : pos ≤ data.length) (k m : Nat) (hkm : k + m ≤ bytes.length) :
    ((overwriteAt data pos bytes).drop (pos + k)).take m = (bytes.drop k).take m := by
  rw [overwriteAt_eq data pos bytes h, List.append_assoc]
  rw [← List.drop_drop]
  rw [List.drop_left' (by rw [List.length_take]; omega)]
  rw [List.drop_append_eq_append_drop]
  rw [Nat.sub_eq_zero_of_le (by omega), List.drop_zero]
  rw [List.take_append_eq_append_take]
  rw [Nat.sub_eq_zero_of_le (by rw [List.length_drop]; omega), List.take_zero,
    List.append_nil]

theorem memStream_write (s : MemStream) (bytes : List Nat) :
    memStream.write s bytes =
      (MemStream.mk (overwriteAt s.data s.pos bytes) (s.pos + bytes.length),
        Except.ok bytes.length) := rfl

theorem memStream_read_ok (s : MemStream) (n : Nat)
    (h : s.pos + n ≤ s.data.length) :
    memStream.read s (List.replicate n 0) =
      (MemStream.mk s.data (s.pos + n),
        Except.ok ((s.data.drop s.pos).take n, n)) := by
  simp [memStream, MemStream.readOp, h]

theorem memStream_read_err (s : MemStream) (n : Nat)
    (h : s.data.length < s.pos + n) :
    memStream.read s (List.replicate n 0) =
      (s, Except.error StreamError.ReadError) := by
  simp only [memStream, MemStream.readOp, List.length_replicate]
  rw [if_neg (by omega)]

theorem memStream_seek_ok (s : MemStream) (p : Nat) (h : p ≤ s.data.length) :
    memStream.seek s p = (MemStream.mk s.data p, Except.ok p) := by
  simp [memStream, MemStream.seekOp, h]

theorem readFixed_eq_ok {σ α : Type} (S : Stream σ) (s : σ) (w : Nat)
    (dec : List Nat → Except Unit α) (s1 : σ) (buf : List Nat) (c : Nat) (v : α)
    (hr : S.read s (List.replicate w 0) = (s1, Except.ok (buf, c)))
    (hd : dec buf = Except.ok v) :
    readFixed S s w dec = (s1, Except.ok v) := by
  unfold readFixed
  rw [hr]
  simp [hd]

theorem writeFixed_eq {σ : Type} (S : Stream σ) (s : σ) (data : List Nat)
    (s1 : σ) (c : Nat) (hw : S.write s data = (s1, Except.ok c)) :
    writeFixed S s data = (s1, Except.ok c) := by
  unfold writeFixed
  rw [hw]

theorem reader_seek_to_eq {σ : Type} (S : Stream σ) (s : σ) (p : Nat)
    (s1 : σ) (q : Nat) (hs : S.seek s p = (s1, Except.ok q)) :
    BinaryReader.seek_to S s p = (s1, Except.ok q) := by
  unfold BinaryReader.seek_to
  rw [hs]

theorem fixed_roundtrip {α : Type} (s : MemStream) (h : s.pos ≤ s.data.length)
    (data : List Nat) (dec : List Nat → Except Unit α) (v : α)
    (hdec : dec data = Except.ok v) :
    writeReadBack (fun t => writeFixed memStream t data)
      (fun t => readFixed memStream t data.length dec) s = Except.ok v := by
  have hw := writeFixed_eq memStream s data _ _ (memStream_write s data)
  have hlen : (overwriteAt s.data s.pos data).length =
      max s.data.length (s.pos + data.length) :=
    overwriteAt_length s.data s.pos data h
  have hseek := reader_seek_to_eq memStream
    (MemStream.mk (overwriteAt s.data s.pos data) (s.pos + data.length)) s.pos _ _
    (memStream_seek_ok _ s.pos (by simp only [hlen]; omega))
  have hbuf : ((overwriteAt s.data s.pos data).drop s.pos).take data.length = data := by
    have h0 := overwriteAt_read s.data s.pos data h 0 data.length (by omega)
    simpa using h0
  have hread := readFixed_eq_ok memStream
    (MemStream.mk (overwriteAt s.data s.pos data) s.pos) data.length dec
    (MemStream.mk (overwriteAt s.data s.pos data) (s.pos + data.length))
    data data.length v
    (by
      rw [memStream_read_ok _ data.length
        (by show s.pos + data.length ≤ (overwriteAt s.data s.pos data).length
            rw [hlen]; omega)]
      simp [hbuf])
    hdec
  simp only [writeReadBack, hw, hseek, hread]

theorem roundtrip_uint (s : MemStream) (h : s.pos ≤ s.data.length) (w v : Nat)
    (hv : v < 256 ^ w) :
    writeReadBack (fun t => writeFixed memStream t (serialize_uint w v))
      (fun t => readFixed memStream t w (deserialize_uint w)) s = Except.ok v := by
  have hl : (serialize_uint w v).length = w := leEncode_length w v
  have hr := fixed_roundtrip s h (serialize_uint w v) (deserialize_uint w) v
    (deserialize_serialize_uint w v hv)
  rwa [hl] at hr

theorem roundtrip_int (s : MemStream) (h : s.pos ≤ s.data.length) (w : Nat)
    (hw : 0 < w) (v : Int) (h1 : -(2 ^ (8 * w - 1)) ≤ v) (h2 : v < 2 ^ (8 * w - 1)) :
    writeReadBack (fun t => writeFixed memStream t (serialize_int w v))
      (fun t => readFixed memStream t w (deserialize_int w)) s = Except.ok v := by
  have hl : (serialize_int w v).length = w := leEncode_length w _
  have hr := fixed_roundtrip s h (serialize_int w v) (deserialize_int w) v
    (deserialize_serialize_int w hw v h1 h2)
  rwa [hl] at hr

/-- C1: for every supported primitive type (i8/u8, i16/u16, i32/u32,
i64/u64, isize/usize, f32, f64) and every representable value `v`, writing
`v` with the matching `BinaryWriter::write_<T>` and then reading with
`BinaryReader::read_<T>` at the same stream position over a faithful
backing store returns `Ok(v)` exactly — bit-exact for floats, whose values
are modelled by their IEEE-754 bit patterns (so ±0.0 and every NaN pattern
are covered). -/
theorem C1_primitive_roundtrip (s : MemStream) (h : s.pos ≤ s.data.length) :
    (∀ v : Nat, v < 2 ^ 8 →
      writeReadBack (fun t => BinaryWriter.write_u8 memStream t v)
        (fun t => BinaryReader.read_u8 memStream t) s = Except.ok v)
  ∧ (∀ v : Int, -(2 ^ 7) ≤ v → v < 2 ^ 7 →
      writeReadBack (fun t => BinaryWriter.write_i8 memStream t v)
        (fun t => BinaryReader.read_i8 memStream t) s = Except.ok v)
  ∧ (∀ v : Nat, v < 2 ^ 16 →
      writeReadBack (fun t => BinaryWriter.write_u16 memStream t v)
        (fun t => BinaryReader.read_u16 memStream t) s = Except.ok v)
  ∧ (∀ v : Int, -(2 ^ 15) ≤ v → v < 2 ^ 15 →
      writeReadBack (fun t => BinaryWriter.write_i16 memStream t v)
        (fun t => BinaryReader.read_i16 memStream t) s = Except.ok v)
  ∧ (∀ v : Nat, v < 2 ^ 32 →
      writeReadBack (fun t => BinaryWriter.write_u32 memStream t v)
        (fun t => BinaryReader.read_u32 memStream t) s = Except.ok v)
  ∧ (∀ v : Int, -(2 ^ 31) ≤ v → v < 2 ^ 31 →
      writeReadBack (fun t => BinaryWriter.write_i32 memStream t v)
        (fun t => BinaryReader.read_i32 memStream t) s = Except.ok v)
  ∧ (∀ v : Nat, v < 2 ^ 64 →
      writeReadBack (fun t => BinaryWriter.write_u64 memStream t v)
        (fun t => BinaryReader.read_u64 memStream t) s = Except.ok v)
  ∧ (∀ v : Int, -(2 ^ 63) ≤ v → v < 2 ^ 63 →
      writeReadBack (fun t => BinaryWriter.write_i64 memStream t v)
        (fun t => BinaryReader.read_i64 memStream t) s = Except.ok v)
  ∧ (∀ v : Nat, v < 2 ^ 64 →
      writeReadBack (fun t => BinaryWriter.write_usize memStream t v)
        (fun t => BinaryReader.read_usize memStream t) s = Except.ok v)
  ∧ (∀ v : Int, -(2 ^ 63) ≤ v → v < 2 ^ 63 →
      writeReadBack (fun t => BinaryWriter.write_isize memStream t v)
        (fun t => BinaryReader.read_isize memStream t) s = Except.ok v)
  ∧ (∀ v : Nat, v < 2 ^ 32 →
      writeReadBack (fun t => BinaryWriter.write_f32 memStream t v)
        (fun t => BinaryReader.read_f32 memStream t) s = Except.ok v)
  ∧ (∀ v : Nat, v < 2 ^ 64 →
      writeReadBack (fun t => BinaryWriter.write_f64 memStream t v)
        (fun t => BinaryReader.read_f64 memStream t) s = Except.ok v) := by
  refine ⟨?_, ?_, ?_, ?_, ?_, ?_, ?_, ?_, ?_, ?_, ?_, ?_⟩
  · intro v hv
    exact roundtrip_uint s h 1 v (by norm_num at hv ⊢; omega)
  · intro v h1 h2
    exact roundtrip_int s h 1 (by norm_num) v (by norm_num at h1 ⊢; omega)
      (by norm_num at h2 ⊢; omega)
  · intro v hv
    exact roundtrip_uint s h 2 v (by norm_num at hv ⊢; omega)
  · intro v h1 h2
    exact roundtrip_int s h 2 (by norm_num) v (by norm_num at h1 ⊢; omega)
      (by norm_num at h2 ⊢; omega)
  · intro v hv
    exact roundtrip_uint s h 4 v (by norm_num at hv ⊢; omega)
  · intro v h1 h2
    exact roundtrip_int s h 4 (by norm_num) v (by norm_num at h1 ⊢; omega)
      (by norm_num at h2 ⊢; omega)
  · intro v hv
    exact roundtrip_uint s h 8 v (by norm_num at hv ⊢; omega)
  · intro v h1 h2
    exact roundtrip_int s h 8 (by norm_num) v (by norm_num at h1 ⊢; omega)
      (by norm_num at h2 ⊢; omega)
  · intro v hv
    exact roundtrip_uint s h 8 v (by norm_num at hv ⊢; omega)
  · intro v h1 h2
    exact roundtrip_int s h 8 (by norm_num) v (by norm_num at h1 ⊢; omega)
      (by norm_num at h2 ⊢; omega)
  · intro v hv
    exact roundtrip_uint s h 4 v (by norm_num at hv ⊢; omega)
  · intro v hv
    exact roundtrip_uint s h 8 v (by norm_num at hv ⊢; omega)

/-- Witness for C1: concrete round trips on an empty memory stream — `u32`
value 300, `i16` value -2, and the `f64` NaN bit pattern
`0x7FF8000000000001`. -/
theorem C1_primitive_roundtrip_witness :
    writeReadBack (fun t => BinaryWriter.write_u32 memStream t 300)
      (fun t => BinaryReader.read_u32 memStream t) (MemStream.mk [] 0) =
        Except.ok 300
  ∧ writeReadBack (fun t => BinaryWriter.write_i16 memStream t (-2))
      (fun t => BinaryReader.read_i16 memStream t) (MemStream.mk [] 0) =
        Except.ok (-2)
  ∧ writeReadBack (fun t => BinaryWriter.write_f64 memStream t 0x7FF8000000000001)
      (fun t => BinaryReader.read_f64 memStream t) (MemStream.mk [] 0) =
        Except.ok 0x7FF8000000000001 := by
  have h := C1_primitive_roundtrip (MemStream.mk [] 0) (by decide)
  exact ⟨h.2.2.2.2.1 300 (by norm_num),
    h.2.2.2.1 (-2) (by norm_num) (by norm_num),
    h.2.2.2.2.2.2.2.2.2.2.2 0x7FF8000000000001 (by norm_num)⟩

theorem readFixed_state {σ α : Type} (S : Stream σ) (s : σ) (w : Nat)
    (dec : List Nat → Except Unit α) :
    (readFixed S s w dec).1 = (S.read s (List.replicate w 0)).1 := by
  unfold readFixed
  rcases S.read s (List.replicate w 0) with ⟨s1, r⟩
  rcases r with e | ⟨buf, c⟩
  · rfl
  · rcases hd : dec buf with e | v <;> simp [hd]

/-- C4: `write_usize`/`write_isize` always encode into exactly 8 bytes (the
stream receives an 8-byte buffer, reports 8 bytes written, and the cursor
advances by 8 for every value), and `read_usize`/`read_isize` always
consume exactly 8 bytes (the cursor advances by 8); the model fixes the
64-bit bincode wire width independent of any host pointer width. -/
theorem C4_platform_width_eight_bytes (s : MemStream) (v : Nat) (vi : Int) :
    ((serialize_uint 8 v).length = 8 ∧ (serialize_int 8 vi).length = 8)
  ∧ ((BinaryWriter.write_usize memStream s v).1.pos = s.pos + 8
      ∧ (BinaryWriter.write_usize memStream s v).2 = Except.ok 8)
  ∧ ((BinaryWriter.write_isize memStream s vi).1.pos = s.pos + 8
      ∧ (BinaryWriter.write_isize memStream s vi).2 = Except.ok 8)
  ∧ (s.pos + 8 ≤ s.data.length →
      (BinaryReader.read_usize memStream s).1.pos = s.pos + 8)
  ∧ (s.pos + 8 ≤ s.data.length →
      (BinaryReader.read_isize memStream s).1.pos = s.pos + 8) := by
  have hu : (serialize_uint 8 v).length = 8 := leEncode_length 8 v
  have hi : (serialize_int 8 vi).length = 8 := leEncode_length 8 _
  have hwu := writeFixed_eq memStream s (serialize_uint 8 v) _ _
    (memStream_write s (serialize_uint 8 v))
  have hwi := writeFixed_eq memStream s (serialize_int 8 vi) _ _
    (memStream_write s (serialize_int 8 vi))
  refine ⟨⟨hu, hi⟩, ⟨?_, ?_⟩, ⟨?_, ?_⟩, ?_, ?_⟩
  · show (writeFixed memStream s (serialize_uint 8 v)).1.pos = s.pos + 8
    rw [hwu]
    simp [hu]
  · show (writeFixed memStream s (serialize_uint 8 v)).2 = Except.ok 8
    rw [hwu, hu]
  · show (writeFixed memStream s (serialize_int 8 vi)).1.pos = s.pos + 8
    rw [hwi]
    simp [hi]
  · show (writeFixed memStream s (serialize_int 8 vi)).2 = Except.ok 8
    rw [hwi, hi]
  · intro h8
    show (readFixed memStream s 8 (deserialize_uint 8)).1.pos = s.pos + 8
    rw [readFixed_state, memStream_read_ok s 8 h8]
  · intro h8
    show (readFixed memStream s 8 (deserialize_int 8)).1.pos = s.pos + 8
    rw [readFixed_state, memStream_read_ok s 8 h8]

/-- Witness for C4: on concrete streams, writing `usize` 5 from position 0
leaves the cursor at 8, and reading a `usize` from an 8-byte medium leaves
the cursor at 8. -/
theorem C4_platform_width_eight_bytes_witness :
    (BinaryWriter.write_usize memStream (MemStream.mk [] 0) 5).1.pos = 8
  ∧ (BinaryReader.read_usize memStream
      (MemStream.mk (List.replicate 8 7) 0)).1.pos = 8 := by
  constructor
  · have h := C4_platform_width_eight_bytes (MemStream.mk [] 0) 5 0
    simpa using h.2.1.1
  · have h := C4_platform_width_eight_bytes
      (MemStream.mk (List.replicate 8 7) 0) 5 0
    simpa using h.2.2.2.1 (by simp)

/-- C6: when fewer than `length` bytes remain in the medium, the backing
store's `read` fails with `ReadError` and `read_bytes(length)` surfaces it
as `Err(BinaryError::StreamError(ReadError))`, returning no partial buffer. -/
theorem C6_short_read_fails (s : MemStream) (length : Nat)
    (h : s.data.length < s.pos + length) :
    BinaryReader.read_bytes memStream s length =
      (s, Except.error (BinaryError.StreamError StreamError.ReadError)) := by
  unfold BinaryReader.read_bytes
  rw [memStream_read_err s length h]

/-- Witness for C6: asking for 5 bytes of a 2-byte medium fails with the
stream read error. -/
theorem C6_short_read_fails_witness :
    BinaryReader.read_bytes memStream (MemStream.mk [1, 2] 0) 5 =
      (MemStream.mk [1, 2] 0,
        Except.error (BinaryError.StreamError StreamError.ReadError)) :=
  C6_short_read_fails (MemStream.mk [1, 2] 0) 5 (by decide)

/-- C9: `read_bytes` discards the count reported by `Stream::read`: over a
backing store that fills only the bytes it has and still reports `Ok`, a
request for more bytes than are available succeeds with the full
`length`-sized buffer, the unfilled tail remaining zero. -/
theorem C9_short_ok_read_zero_padded (avail : List Nat) (length : Nat)
    (h : avail.length < length) :
    BinaryReader.read_bytes shortStream (ShortStream.mk avail) length =
      (ShortStream.mk [],
        Except.ok (avail ++ List.replicate (length - avail.length) 0))
  ∧ (avail ++ List.replicate (length - avail.length) 0).length = length := by
  have hle : avail.length ≤ length := Nat.le_of_lt h
  have hr : shortStream.read (ShortStream.mk avail) (List.replicate length 0) =
      (ShortStream.mk [],
        Except.ok (avail ++ List.replicate (length - avail.length) 0,
          avail.length)) := by
    simp [shortStream, Nat.min_eq_left hle, List.drop_replicate, hle]
  constructor
  · unfold BinaryReader.read_bytes
    rw [hr]
  · simp
    omega

/-- Witness for C9: a store holding only `[9]` answers a 3-byte
`read_bytes` with success and the zero-padded buffer `[9, 0, 0]`. -/
theorem C9_short_ok_read_zero_padded_witness :
    BinaryReader.read_bytes shortStream (ShortStream.mk [9]) 3 =
      (ShortStream.mk [], Except.ok [9, 0, 0]) :=
  (C9_short_ok_read_zero_padded [9] 3 (by decide)).1

/-- C10: on a stream that writes fully, `write_string` returns `Ok` of only
the byte count of the string's UTF-8 payload — the 8 bytes of the length
field are not included in the returned count. -/
theorem C10_write_string_count (s : MemStream) (value : List Nat) :
    (BinaryWriter.write_string memStream s value).2 = Except.ok value.length
  ∧ (BinaryWriter.write_string memStream s value).2 ≠
      Except.ok (8 + value.length) := by
  have hwu : BinaryWriter.write_usize memStream s value.length =
      (MemStream.mk (overwriteAt s.data s.pos (serialize_uint 8 value.length))
        (s.pos + (serialize_uint 8 value.length).length),
        Except.ok (serialize_uint 8 value.length).length) :=
    writeFixed_eq memStream s (serialize_uint 8 value.length) _ _
      (memStream_write s (serialize_uint 8 value.length))
  have hmain : (BinaryWriter.write_string memStream s value).2 =
      Except.ok value.length := by
    unfold BinaryWriter.write_string
    rw [hwu]
    simp [memStream_write]
  refine ⟨hmain, ?_⟩
  rw [hmain]
  intro hcontra
  have := Except.ok.inj hcontra
  omega

/-- C8: for both `BinaryReader` and `BinaryWriter`, over any `Stream`
implementation, `seek_to(to)` returns `Ok(p)` exactly when the underlying
`Stream::seek(to)` returns `Ok(p)` and `Err(BinaryError::StreamError(e))`
exactly when it returns `Err(e)`, and `get_cur_pos()` relates to
`Stream::tell()` the same way; neither wrapper has any other effect — the
resulting stream state is exactly the one the underlying operation left. -/
theorem C8_seek_tell_thin_wrappers {σ : Type} (S : Stream σ) (s : σ) (p : Nat) :
    ((BinaryReader.seek_to S s p).1 = (S.seek s p).1
      ∧ (∀ r : Nat, (BinaryReader.seek_to S s p).2 = Except.ok r ↔
          (S.seek s p).2 = Except.ok r)
      ∧ (∀ e : StreamError, (BinaryReader.seek_to S s p).2 =
          Except.error (BinaryError.StreamError e) ↔ (S.seek s p).2 = Except.error e))
  ∧ ((BinaryWriter.seek_to S s p).1 = (S.seek s p).1
      ∧ (∀ r : Nat, (BinaryWriter.seek_to S s p).2 = Except.ok r ↔
          (S.seek s p).2 = Except.ok r)
      ∧ (∀ e : StreamError, (BinaryWriter.seek_to S s p).2 =
          Except.error (BinaryError.StreamError e) ↔ (S.seek s p).2 = Except.error e))
  ∧ ((BinaryReader.get_cur_pos S s).1 = (S.tell s).1
      ∧ (∀ r : Nat, (BinaryReader.get_cur_pos S s).2 = Except.ok r ↔
          (S.tell s).2 = Except.ok r)
      ∧ (∀ e : StreamError, (BinaryReader.get_cur_pos S s).2 =
          Except.error (BinaryError.StreamError e) ↔ (S.tell s).2 = Except.error e))
  ∧ ((BinaryWriter.get_cur_pos S s).1 = (S.tell s).1
      ∧ (∀ r : Nat, (BinaryWriter.get_cur_pos S s).2 = Except.ok r ↔
          (S.tell s).2 = Except.ok r)
      ∧ (∀ e : StreamError, (BinaryWriter.get_cur_pos S s).2 =
          Except.error (BinaryError.StreamError e) ↔ (S.tell s).2 = Except.error e)) := by
  refine ⟨?_, ?_, ?_, ?_⟩
  · rcases hs : S.seek s p with ⟨s1, r⟩
    rcases r with e | q <;>
      simp [BinaryReader.seek_to, hs]
  · rcases hs : S.seek s p with ⟨s1, r⟩
    rcases r with e | q <;>
      simp [BinaryWriter.seek_to, hs]
  · rcases hs : S.tell s with ⟨s1, r⟩
    rcases r with e | q <;>
      simp [BinaryReader.get_cur_pos, hs]
  · rcases hs : S.tell s with ⟨s1, r⟩
    rcases r with e | q <;>
      simp [BinaryWriter.get_cur_pos, hs]

theorem overwriteAt_append (data : List Nat) (pos : Nat) (b1 b2 : List Nat)
    (h : pos ≤ data.length) :
    overwriteAt (overwriteAt data pos b1) (pos + b1.length) b2 =
      overwriteAt data pos (b1 ++ b2) := by
  have h1 : pos + b1.length ≤ (overwriteAt data pos b1).length := by
    rw [overwriteAt_length data pos b1 h]
    omega
  have hlen1 : (data.take pos ++ b1).length = pos + b1.length := by
    simp [List.length_take]
    omega
  rw [overwriteAt_eq _ _ b2 h1, overwriteAt_eq data pos b1 h,
    overwriteAt_eq data pos (b1 ++ b2) h]
  have htake : ((data.take pos ++ b1) ++ data.drop (pos + b1.length)).take
      (pos + b1.length) = data.take pos ++ b1 := List.take_left' hlen1
  have hdrop : ((data.take pos ++ b1) ++ data.drop (pos + b1.length)).drop
      (pos + b1.length + b2.length) = data.drop (pos + b1.length + b2.length) := by
    rw [List.drop_append_eq_append_drop, hlen1,
      List.drop_eq_nil_of_le (by rw [hlen1]; omega)]
    rw [List.nil_append, List.drop_drop]
    congr 1
    omega
  calc (data.take pos ++ b1 ++ data.drop (pos + b1.length)).take (pos + b1.length) ++
        b2 ++ (data.take pos ++ b1 ++ data.drop (pos + b1.length)).drop
          (pos + b1.length + b2.length)
      = (data.take pos ++ b1) ++ b2 ++ data.drop (pos + b1.length + b2.length) := by
        rw [htake, hdrop]
    _ = data.take pos ++ (b1 ++ b2) ++ data.drop (pos + (b1 ++ b2).length) := by
        rw [List.length_append]
        rw [show pos + (b1.length + b2.length) = pos + b1.length + b2.length from
          by omega]
        simp [List.append_assoc]

theorem write_string_mem (s : MemStream) (value : List Nat)
    (h : s.pos ≤ s.data.length) :
    BinaryWriter.write_string memStream s value =
      (MemStream.mk
        (overwriteAt s.data s.pos (serialize_uint 8 value.length ++ value))
        (s.pos + 8 + value.length), Except.ok value.length) := by
  have hl : (serialize_uint 8 value.length).length = 8 := leEncode_length 8 _
  have hwu : BinaryWriter.write_usize memStream s value.length =
      (MemStream.mk (overwriteAt s.data s.pos (serialize_uint 8 value.length))
        (s.pos + (serialize_uint 8 value.length).length),
        Except.ok (serialize_uint 8 value.length).length) :=
    writeFixed_eq memStream s (serialize_uint 8 value.length) _ _
      (memStream_write s (serialize_uint 8 value.length))
  unfold BinaryWriter.write_string
  rw [hwu]
  simp only [memStream_write]
  rw [overwriteAt_append s.data s.pos (serialize_uint 8 value.length) value h, hl]

/-- C2: for any UTF-8 string (modelled by its UTF-8 byte content, covering
the empty string and multi-byte code points), `write_string` followed by
`read_string` at the same starting position over a faithful backing store
yields the same string, and the 8 bytes written at the starting position
decode to the string's byte length. -/
theorem C2_string_roundtrip (s : MemStream) (value : List Nat)
    (hpos : s.pos ≤ s.data.length) (hlen : value.length < 2 ^ 64)
    (hvalid : validUtf8 value = true) :
    (BinaryReader.read_string memStream
      (BinaryReader.seek_to memStream
        (BinaryWriter.write_string memStream s value).1 s.pos).1).2 =
      Except.ok value
  ∧ leDecode
      (((BinaryWriter.write_string memStream s value).1.data.drop s.pos).take 8) =
      value.length := by
  have hl8 : (serialize_uint 8 value.length).length = 8 := leEncode_length 8 _
  have hbl : (serialize_uint 8 value.length ++ value).length = 8 + value.length := by
    simp [hl8]
  have hws := write_string_mem s value hpos
  set D := overwriteAt s.data s.pos (serialize_uint 8 value.length ++ value)
    with hDdef
  have hD : D.length = max s.data.length (s.pos + (8 + value.length)) := by
    rw [hDdef, overwriteAt_length _ _ _ hpos, hbl]
  have hb8 : (D.drop s.pos).take 8 = serialize_uint 8 value.length := by
    have h0 := overwriteAt_read s.data s.pos
      (serialize_uint 8 value.length ++ value) hpos 0 8 (by rw [hbl]; omega)
    simp only [Nat.add_zero, List.drop_zero] at h0
    rw [hDdef, h0, List.take_left' hl8]
  have hbL : (D.drop (s.pos + 8)).take value.length = value := by
    have h0 := overwriteAt_read s.data s.pos
      (serialize_uint 8 value.length ++ value) hpos 8 value.length
      (by rw [hbl])
    rw [hDdef, h0, List.drop_left' hl8, List.take_length]
  have hread1 := readFixed_eq_ok memStream (MemStream.mk D s.pos) 8
    (deserialize_uint 8) (MemStream.mk D (s.pos + 8))
    (serialize_uint 8 value.length) 8 value.length
    (by
      rw [memStream_read_ok (MemStream.mk D s.pos) 8
        (by show s.pos + 8 ≤ D.length; rw [hD]; omega)]
      simp [hb8])
    (deserialize_serialize_uint 8 value.length (by norm_num at hlen ⊢; omega))
  have hru : BinaryReader.read_usize memStream (MemStream.mk D s.pos) =
      (MemStream.mk D (s.pos + 8), Except.ok value.length) := hread1
  have hmr2 : memStream.read (MemStream.mk D (s.pos + 8))
      (List.replicate value.length 0) =
      (MemStream.mk D (s.pos + 8 + value.length),
        Except.ok (value, value.length)) := by
    rw [memStream_read_ok (MemStream.mk D (s.pos + 8)) value.length
      (by show s.pos + 8 + value.length ≤ D.length; rw [hD]; omega)]
    simp [hbL]
  have hreadstr : BinaryReader.read_string memStream (MemStream.mk D s.pos) =
      (MemStream.mk D (s.pos + 8 + value.length), Except.ok value) := by
    unfold BinaryReader.read_string
    simp [hru, hmr2, hvalid]
  have hseek : BinaryReader.seek_to memStream
      (MemStream.mk D (s.pos + 8 + value.length)) s.pos =
      (MemStream.mk D s.pos, Except.ok s.pos) :=
    reader_seek_to_eq memStream (MemStream.mk D (s.pos + 8 + value.length))
      s.pos (MemStream.mk D s.pos) s.pos
      (memStream_seek_ok (MemStream.mk D (s.pos + 8 + value.length)) s.pos
        (by show s.pos ≤ D.length; rw [hD]; omega))
  constructor
  · simp only [hws, hseek, hreadstr]
  · simp only [hws]
    rw [hb8]
    exact leDecode_leEncode 8 value.length (by norm_num at hlen ⊢; omega)

/-- Witness for C2: round-tripping the 6 UTF-8 bytes of `"héllo"` (5
characters) through an empty memory stream returns the same bytes, and the
length field decodes to 6, the byte count rather than the character count. -/
theorem C2_string_roundtrip_witness :
    (BinaryReader.read_string memStream
      (BinaryReader.seek_to memStream
        (BinaryWriter.write_string memStream (MemStream.mk [] 0)
          [104, 195, 169, 108, 108, 111]).1 0).1).2 =
      Except.ok [104, 195, 169, 108, 108, 111]
  ∧ leDecode (((BinaryWriter.write_string memStream (MemStream.mk [] 0)
      [104, 195, 169, 108, 108, 111]).1.data.drop 0).take 8) = 6 :=
  C2_string_roundtrip (MemStream.mk [] 0) [104, 195, 169, 108, 108, 111]
    (by decide) (by norm_num) (by decide)

/-- C5: when `read_string` reads a correct 8-byte length field `L` and then
successfully reads `L` bytes that are not valid UTF-8, it returns
`Err(BinaryError::Utf8Error)` — no retry, no truncated result — and the
cursor has still advanced past the consumed bytes, `8 + L` in total. -/
theorem C5_utf8_error_cursor_advanced (s : MemStream) (L : Nat)
    (bad rest : List Nat) (hL : L < 2 ^ 64)
    (hdata : s.data.drop s.pos = leEncode 8 L ++ bad ++ rest)
    (hbadlen : bad.length = L) (hbad : validUtf8 bad = false) :
    BinaryReader.read_string memStream s =
      (MemStream.mk s.data (s.pos + 8 + L),
        Except.error BinaryError.Utf8Error) := by
  have hlen8 : (leEncode 8 L).length = 8 := leEncode_length 8 L
  have hlens : s.data.length - s.pos = 8 + L + rest.length := by
    have hc := congrArg List.length hdata
    simp [List.length_drop, hlen8, hbadlen] at hc
    omega
  have hpos : s.pos + 8 + L ≤ s.data.length := by omega
  have htake8 : (s.data.drop s.pos).take 8 = leEncode 8 L := by
    rw [hdata, List.append_assoc, List.take_left' hlen8]
  have htakeL : ((s.data.drop s.pos).drop 8).take L = bad := by
    rw [hdata, List.append_assoc, List.drop_left' hlen8,
      List.take_append_eq_append_take,
      Nat.sub_eq_zero_of_le (by omega), List.take_zero, List.append_nil,
      List.take_of_length_le (by omega)]
  have hread1 := readFixed_eq_ok memStream s 8 (deserialize_uint 8)
    (MemStream.mk s.data (s.pos + 8)) (leEncode 8 L) 8 L
    (by
      rw [memStream_read_ok s 8 (by omega)]
      simp [htake8])
    (deserialize_serialize_uint 8 L (by norm_num at hL ⊢; omega))
  have hru : BinaryReader.read_usize memStream s =
      (MemStream.mk s.data (s.pos + 8), Except.ok L) := hread1
  have hmr2 : memStream.read (MemStream.mk s.data (s.pos + 8))
      (List.replicate L 0) =
      (MemStream.mk s.data (s.pos + 8 + L), Except.ok (bad, L)) := by
    rw [memStream_read_ok (MemStream.mk s.data (s.pos + 8)) L
      (by show s.pos + 8 + L ≤ s.data.length; omega)]
    have hdd : (s.data.drop (s.pos + 8)).take L = bad := by
      rw [← List.drop_drop, htakeL]
    simp [hdd]
  unfold BinaryReader.read_string
  simp [hru, hmr2, hbad]

/-- Witness for C5: a stream whose 9 bytes are the length field for 1
followed by the invalid byte `0xFF`; `read_string` fails with `Utf8Error`
and the cursor ends at 9. -/
theorem C5_utf8_error_cursor_advanced_witness :
    BinaryReader.read_string memStream
      (MemStream.mk [1, 0, 0, 0, 0, 0, 0, 0, 255] 0) =
      (MemStream.mk [1, 0, 0, 0, 0, 0, 0, 0, 255] 9,
        Except.error BinaryError.Utf8Error) :=
  C5_utf8_error_cursor_advanced (MemStream.mk [1, 0, 0, 0, 0, 0, 0, 0, 255] 0)
    1 [255] [] (by norm_num) (by decide) (by decide) (by decide)

theorem writeFixed_state {σ : Type} (S : Stream σ) (s : σ) (data : List Nat) :
    (writeFixed S s data).1 = (S.write s data).1 := by
  unfold writeFixed
  rcases S.write s data with ⟨s1, r⟩
  rcases r with e | v <;> rfl

theorem readFixed_eq_err {σ α : Type} (S : Stream σ) (s : σ) (w : Nat)
    (dec : List Nat → Except Unit α) (s1 : σ) (e : StreamError)
    (hr : S.read s (List.replicate w 0) = (s1, Except.error e)) :
    readFixed S s w dec = (s1, Except.error (BinaryError.StreamError e)) := by
  unfold readFixed
  rw [hr]

theorem countingStream_read_state (c : CountingStream) (buffer : List Nat) :
    (countingStream.read c buffer).1 =
      CountingStream.mk (MemStream.readOp c.mem buffer).1 (c.reads + 1)
        c.writes := by
  show (match MemStream.readOp c.mem buffer with
    | (m, r) => (CountingStream.mk m (c.reads + 1) c.writes, r)).1 = _
  rcases MemStream.readOp c.mem buffer with ⟨m, r⟩
  rfl

theorem countingStream_read_ok (c : CountingStream) (n : Nat)
    (h : c.mem.pos + n ≤ c.mem.data.length) :
    countingStream.read c (List.replicate n 0) =
      (CountingStream.mk (MemStream.mk c.mem.data (c.mem.pos + n))
        (c.reads + 1) c.writes,
        Except.ok ((c.mem.data.drop c.mem.pos).take n, n)) := by
  show (match MemStream.readOp c.mem (List.replicate n 0) with
    | (m, r) => (CountingStream.mk m (c.reads + 1) c.writes, r)) = _
  rw [show MemStream.readOp c.mem (List.replicate n 0) =
      (MemStream.mk c.mem.data (c.mem.pos + n),
        Except.ok ((c.mem.data.drop c.mem.pos).take n, n)) from
    memStream_read_ok c.mem n h]

theorem countingStream_read_err (c : CountingStream) (n : Nat)
    (h : c.mem.data.length < c.mem.pos + n) :
    countingStream.read c (List.replicate n 0) =
      (CountingStream.mk c.mem (c.reads + 1) c.writes,
        Except.error StreamError.ReadError) := by
  show (match MemStream.readOp c.mem (List.replicate n 0) with
    | (m, r) => (CountingStream.mk m (c.reads + 1) c.writes, r)) = _
  rw [show MemStream.readOp c.mem (List.replicate n 0) =
      (c.mem, Except.error StreamError.ReadError) from
    memStream_read_err c.mem n h]

theorem readFixed_counts (c : CountingStream) (w : Nat) {α : Type}
    (dec : List Nat → Except Unit α) :
    (readFixed countingStream c w dec).1.reads = c.reads + 1 ∧
    (readFixed countingStream c w dec).1.writes = c.writes := by
  rw [readFixed_state, countingStream_read_state]
  exact ⟨rfl, rfl⟩

theorem writeFixed_counts (c : CountingStream) (data : List Nat) :
    (writeFixed countingStream c data).1.writes = c.writes + 1 ∧
    (writeFixed countingStream c data).1.reads = c.reads :=
  ⟨rfl, rfl⟩

theorem read_bytes_counts (c : CountingStream) (n : Nat) :
    (BinaryReader.read_bytes countingStream c n).1.reads = c.reads + 1 ∧
    (BinaryReader.read_bytes countingStream c n).1.writes = c.writes := by
  have hstate : (BinaryReader.read_bytes countingStream c n).1 =
      (countingStream.read c (List.replicate n 0)).1 := by
    unfold BinaryReader.read_bytes
    rcases countingStream.read c (List.replicate n 0) with ⟨c1, r⟩
    rcases r with e | ⟨buf, k⟩ <;> rfl
  rw [hstate, countingStream_read_state]
  exact ⟨rfl, rfl⟩

theorem read_string_counts (c : CountingStream) :
    (BinaryReader.read_string countingStream c).1.reads =
      c.reads + (if c.mem.pos + 8 ≤ c.mem.data.length then 2 else 1) ∧
    (BinaryReader.read_string countingStream c).1.writes = c.writes := by
  rcases le_or_lt (c.mem.pos + 8) c.mem.data.length with h8 | h8
  · rw [if_pos h8]
    have hbl : ((c.mem.data.drop c.mem.pos).take 8).length = 8 := by
      simp [List.length_take, List.length_drop]
      omega
    have hdec : deserialize_uint 8 ((c.mem.data.drop c.mem.pos).take 8) =
        Except.ok (leDecode ((c.mem.data.drop c.mem.pos).take 8)) := by
      unfold deserialize_uint
      rw [if_neg (by omega), List.take_of_length_le (by omega)]
    have hru : BinaryReader.read_usize countingStream c =
        (CountingStream.mk (MemStream.mk c.mem.data (c.mem.pos + 8))
          (c.reads + 1) c.writes,
          Except.ok (leDecode ((c.mem.data.drop c.mem.pos).take 8))) :=
      readFixed_eq_ok countingStream c 8 (deserialize_uint 8) _ _ 8 _
        (countingStream_read_ok c 8 h8) hdec
    unfold BinaryReader.read_string
    simp only [hru]
    set c1 := CountingStream.mk (MemStream.mk c.mem.data (c.mem.pos + 8))
      (c.reads + 1) c.writes with hc1
    set L := leDecode ((c.mem.data.drop c.mem.pos).take 8) with hL
    rcases le_or_lt (c1.mem.pos + L) c1.mem.data.length with h2 | h2
    · simp only [countingStream_read_ok c1 L h2]
      constructor <;> (split <;> rfl)
    · simp only [countingStream_read_err c1 L h2]
      exact ⟨trivial, trivial⟩
  · rw [if_neg (by omega)]
    have hru : BinaryReader.read_usize countingStream c =
        (CountingStream.mk c.mem (c.reads + 1) c.writes,
          Except.error (BinaryError.StreamError StreamError.ReadError)) :=
      readFixed_eq_err countingStream c 8 (deserialize_uint 8) _ _
        (countingStream_read_err c 8 h8)
    unfold BinaryReader.read_string
    simp only [hru]
    exact ⟨trivial, trivial⟩

theorem write_string_counts (c : CountingStream) (value : List Nat) :
    (BinaryWriter.write_string countingStream c value).1.writes = c.writes + 2 ∧
    (BinaryWriter.write_string countingStream c value).1.reads = c.reads :=
  ⟨rfl, rfl⟩

/-- C3 counterexample: on an instrumented stream, a successful
`read_string` of the one-byte string `"h"` performs 2 `Stream::read`
operations (not 1), and a `write_string` of `"h"` performs 2
`Stream::write` operations (not 1) — refuting the claim that every
reader/writer call performs exactly one stream I/O operation, in
particular for `read_string`/`write_string`. -/
theorem C3_counterexample_strings_two_ops :
    ((BinaryReader.read_string countingStream
        (CountingStream.mk (MemStream.mk [1, 0, 0, 0, 0, 0, 0, 0, 104] 0) 0 0)).1.reads = 2
      ∧ ((BinaryReader.read_string countingStream
        (CountingStream.mk (MemStream.mk [1, 0, 0, 0, 0, 0, 0, 0, 104] 0) 0 0)).1.reads ≠ 1)
      ∧ (BinaryReader.read_string countingStream
        (CountingStream.mk (MemStream.mk [1, 0, 0, 0, 0, 0, 0, 0, 104] 0) 0 0)).2 =
          Except.ok [104])
  ∧ ((BinaryWriter.write_string countingStream
        (CountingStream.mk (MemStream.mk [] 0) 0 0) [104]).1.writes = 2
      ∧ ((BinaryWriter.write_string countingStream
        (CountingStream.mk (MemStream.mk [] 0) 0 0) [104]).1.writes ≠ 1)
      ∧ (BinaryWriter.write_string countingStream
        (CountingStream.mk (MemStream.mk [] 0) 0 0) [104]).2 =
          Except.ok 1) :=
  ⟨⟨rfl, by decide, rfl⟩, ⟨rfl, by decide, rfl⟩⟩

/-- C3 (amended): every fixed-width primitive read/write and
`read_bytes`/`write_bytes` performs exactly one stream I/O operation
(readers one `Stream::read` and no write, writers one `Stream::write` and
no read); `read_string`, however, performs two stream reads (length field,
then payload) when the length-field read succeeds and one otherwise, and
`write_string` performs two stream writes (length field, then payload). -/
theorem C3_io_operation_counts (c : CountingStream) :
    ((BinaryReader.read_u8 countingStream c).1.reads = c.reads + 1
      ∧ (BinaryReader.read_u8 countingStream c).1.writes = c.writes)
  ∧ ((BinaryReader.read_i8 countingStream c).1.reads = c.reads + 1
      ∧ (BinaryReader.read_i8 countingStream c).1.writes = c.writes)
  ∧ ((BinaryReader.read_u16 countingStream c).1.reads = c.reads + 1
      ∧ (BinaryReader.read_u16 countingStream c).1.writes = c.writes)
  ∧ ((BinaryReader.read_i16 countingStream c).1.reads = c.reads + 1
      ∧ (BinaryReader.read_i16 countingStream c).1.writes = c.writes)
  ∧ ((BinaryReader.read_u32 countingStream c).1.reads = c.reads + 1
      ∧ (BinaryReader.read_u32 countingStream c).1.writes = c.writes)
  ∧ ((BinaryReader.read_i32 countingStream c).1.reads = c.reads + 1
      ∧ (BinaryReader.read_i32 countingStream c).1.writes = c.writes)
  ∧ ((BinaryReader.read_u64 countingStream c).1.reads = c.reads + 1
      ∧ (BinaryReader.read_u64 countingStream c).1.writes = c.writes)
  ∧ ((BinaryReader.read_i64 countingStream c).1.reads = c.reads + 1
      ∧ (BinaryReader.read_i64 countingStream c).1.writes = c.writes)
  ∧ ((BinaryReader.read_usize countingStream c).1.reads = c.reads + 1
      ∧ (BinaryReader.read_usize countingStream c).1.writes = c.writes)
  ∧ ((BinaryReader.read_isize countingStream c).1.reads = c.reads + 1
      ∧ (BinaryReader.read_isize countingStream c).1.writes = c.writes)
  ∧ ((BinaryReader.read_f32 countingStream c).1.reads = c.reads + 1
      ∧ (BinaryReader.read_f32 countingStream c).1.writes = c.writes)
  ∧ ((BinaryReader.read_f64 countingStream c).1.reads = c.reads + 1
      ∧ (BinaryReader.read_f64 countingStream c).1.writes = c.writes)
  ∧ (∀ n : Nat, (BinaryReader.read_bytes countingStream c n).1.reads = c.reads + 1
      ∧ (BinaryReader.read_bytes countingStream c n).1.writes = c.writes)
  ∧ (∀ v : Nat, (BinaryWriter.write_u8 countingStream c v).1.writes = c.writes + 1
      ∧ (BinaryWriter.write_u8 countingStream c v).1.reads = c.reads)
  ∧ (∀ v : Int, (BinaryWriter.write_i8 countingStream c v).1.writes = c.writes + 1
      ∧ (BinaryWriter.write_i8 countingStream c v).1.reads = c.reads)
  ∧ (∀ v : Nat, (BinaryWriter.write_u16 countingStream c v).1.writes = c.writes + 1
      ∧ (BinaryWriter.write_u16 countingStream c v).1.reads = c.reads)
  ∧ (∀ v : Int, (BinaryWriter.write_i16 countingStream c v).1.writes = c.writes + 1
      ∧ (BinaryWriter.write_i16 countingStream c v).1.reads = c.reads)
  ∧ (∀ v : Nat, (BinaryWriter.write_u32 countingStream c v).1.writes = c.writes + 1
      ∧ (BinaryWriter.write_u32 countingStream c v).1.reads = c.reads)
  ∧ (∀ v : Int, (BinaryWriter.write_i32 countingStream c v).1.writes = c.writes + 1
      ∧ (BinaryWriter.write_i32 countingStream c v).1.reads = c.reads)
  ∧ (∀ v : Nat, (BinaryWriter.write_u64 countingStream c v).1.writes = c.writes + 1
      ∧ (BinaryWriter.write_u64 countingStream c v).1.reads = c.reads)
  ∧ (∀ v : Int, (BinaryWriter.write_i64 countingStream c v).1.writes = c.writes + 1
      ∧ (BinaryWriter.write_i64 countingStream c v).1.reads = c.reads)
  ∧ (∀ v : Nat, (BinaryWriter.write_usize countingStream c v).1.writes = c.writes + 1
      ∧ (BinaryWriter.write_usize countingStream c v).1.reads = c.reads)
  ∧ (∀ v : Int, (BinaryWriter.write_isize countingStream c v).1.writes = c.writes + 1
      ∧ (BinaryWriter.write_isize countingStream c v).1.reads = c.reads)
  ∧ (∀ v : Nat, (BinaryWriter.write_f32 countingStream c v).1.writes = c.writes + 1
      ∧ (BinaryWriter.write_f32 countingStream c v).1.reads = c.reads)
  ∧ (∀ v : Nat, (BinaryWriter.write_f64 countingStream c v).1.writes = c.writes + 1
      ∧ (BinaryWriter.write_f64 countingStream c v).1.reads = c.reads)
  ∧ (∀ d : List Nat, (BinaryWriter.write_bytes countingStream c d).1.writes = c.writes + 1
      ∧ (BinaryWriter.write_bytes countingStream c d).1.reads = c.reads)
  ∧ ((BinaryReader.read_string countingStream c).1.reads =
        c.reads + (if c.mem.pos + 8 ≤ c.mem.data.length then 2 else 1)
      ∧ (BinaryReader.read_string countingStream c).1.writes = c.writes)
  ∧ (∀ v : List Nat,
      (BinaryWriter.write_string countingStream c v).1.writes = c.writes + 2
      ∧ (BinaryWriter.write_string countingStream c v).1.reads = c.reads) := by
  refine ⟨readFixed_counts c 1 (deserialize_uint 1),
    readFixed_counts c 1 (deserialize_int 1),
    readFixed_counts c 2 (deserialize_uint 2),
    readFixed_counts c 2 (deserialize_int 2),
    readFixed_counts c 4 (deserialize_uint 4),
    readFixed_counts c 4 (deserialize_int 4),
    readFixed_counts c 8 (deserialize_uint 8),
    readFixed_counts c 8 (deserialize_int 8),
    readFixed_counts c 8 (deserialize_uint 8),
    readFixed_counts c 8 (deserialize_int 8),
    readFixed_counts c 4 (deserialize_uint 4),
    readFixed_counts c 8 (deserialize_uint 8),
    fun n => read_bytes_counts c n,
    fun v => writeFixed_counts c (serialize_uint 1 v),
    fun v => writeFixed_counts c (serialize_int 1 v),
    fun v => writeFixed_counts c (serialize_uint 2 v),
    fun v => writeFixed_counts c (serialize_int 2 v),
    fun v => writeFixed_counts c (serialize_uint 4 v),
    fun v => writeFixed_counts c (serialize_int 4 v),
    fun v => writeFixed_counts c (serialize_uint 8 v),
    fun v => writeFixed_counts c (serialize_int 8 v),
    fun v => writeFixed_counts c (serialize_uint 8 v),
    fun v => writeFixed_counts c (serialize_int 8 v),
    fun v => writeFixed_counts c (serialize_uint 4 v),
    fun v => writeFixed_counts c (serialize_uint 8 v),
    fun d => ⟨rfl, rfl⟩,
    read_string_counts c,
    fun v => write_string_counts c v⟩

/-- C7: writing `u32` 300, then `f64` 3.14159 (IEEE-754 bit pattern
`0x400921F9F01B866E`), then the string `"héllo"` (UTF-8 bytes
`[104, 195, 169, 108, 108, 111]`) starting at offset 0 of an empty memory
stream, then seeking back to 0 and reading them in the same order, yields
exactly 300, the same `f64` bit pattern, and the same string bytes, with a
final `get_cur_pos()` of 26 = 4 + 8 + 8 + 6. -/
theorem C7_concrete_scenario :
    (BinaryReader.read_u32 memStream
      (BinaryReader.seek_to memStream
        (BinaryWriter.write_string memStream
          (BinaryWriter.write_f64 memStream
            (BinaryWriter.write_u32 memStream (MemStream.mk [] 0) 300).1
            0x400921F9F01B866E).1
          [104, 195, 169, 108, 108, 111]).1 0).1).2 = Except.ok 300
  ∧ (BinaryReader.read_f64 memStream
      (BinaryReader.read_u32 memStream
        (BinaryReader.seek_to memStream
          (BinaryWriter.write_string memStream
            (BinaryWriter.write_f64 memStream
              (BinaryWriter.write_u32 memStream (MemStream.mk [] 0) 300).1
              0x400921F9F01B866E).1
            [104, 195, 169, 108, 108, 111]).1 0).1).1).2 =
      Except.ok 0x400921F9F01B866E
  ∧ (BinaryReader.read_string memStream
      (BinaryReader.read_f64 memStream
        (BinaryReader.read_u32 memStream
          (BinaryReader.seek_to memStream
            (BinaryWriter.write_string memStream
              (BinaryWriter.write_f64 memStream
                (BinaryWriter.write_u32 memStream (MemStream.mk [] 0) 300).1
                0x400921F9F01B866E).1
              [104, 195, 169, 108, 108, 111]).1 0).1).1).1).2 =
      Except.ok [104, 195, 169, 108, 108, 111]
  ∧ (BinaryReader.get_cur_pos memStream
      (BinaryReader.read_string memStream
        (BinaryReader.read_f64 memStream
          (BinaryReader.read_u32 memStream
            (BinaryReader.seek_to memStream
              (BinaryWriter.write_string memStream
                (BinaryWriter.write_f64 memStream
                  (BinaryWriter.write_u32 memStream (MemStream.mk [] 0) 300).1
                  0x400921F9F01B866E).1
                [104, 195, 169, 108, 108, 111]).1 0).1).1).1).1).2 =
      Except.ok 26 :=
  ⟨rfl, rfl, rfl, rfl⟩

end BinaryRs
